import Mathlib

/-!
Verification of the consulate ACL endpoint module (`consulate/api/acl.py`):
a shallow embedding of its input validators, payload formatter, request
models and endpoint operations, together with theorems about the documented
contracts.  Each endpoint operation is embedded as a function of the HTTP
response the transport collaborator returns for its single request.
-/

/-- Embedding of the Python values that appear in request and response
bodies: `None`, booleans, integers, strings, lists, and string-keyed dicts
(a dict is an insertion-ordered association list, as in Python 3.7+). -/
inductive PyVal where
  | none : PyVal
  | bool : Bool → PyVal
  | int : Int → PyVal
  | str : String → PyVal
  | list : List PyVal → PyVal
  | dict : List (String × PyVal) → PyVal

/-- Python truthiness (`bool(v)`): `None`, `False`, `0`, the empty string,
the empty list and the empty dict are falsy; everything else is truthy. -/
def PyVal.isTruthy : PyVal → Bool
  | .none => false
  | .bool b => b
  | .int n => n != 0
  | .str s => !(s == "")
  | .list xs => !xs.isEmpty
  | .dict kvs => !kvs.isEmpty

/-- A PolicyLink is `Dict[str, str]` in the source's type comment: an
insertion-ordered association list of string keys to string values. -/
abbrev PolicyLink := List (String × String)

/-- Value of a ServiceIdentity entry: `Union[str, List[str]]` in the
source's type comment. -/
inductive SIVal where
  | s : String → SIVal
  | sl : List String → SIVal

/-- A ServiceIdentity is `Dict[str, Union[str, List[str]]]` in the source's
type comment. -/
abbrev ServiceIdentity := List (String × SIVal)

/-- Python `k in d` membership test on a dict embedded as an association
list. -/
def hasKey (d : List (String × α)) (k : String) : Bool :=
  d.any (fun kv => kv.1 == k)

/-- The single-quote character. -/
def squote : Char := Char.ofNat 39

/-- The opening-brace character. -/
def lbrace : Char := Char.ofNat 123

/-- The closing-brace character. -/
def rbrace : Char := Char.ofNat 125

/-- Python `sep.join(xs)`. -/
def joinSep (sep : String) : List String → String
  | [] => ""
  | [x] => x
  | x :: y :: xs => x ++ sep ++ joinSep sep (y :: xs)

/-- Models Python `repr` escaping of one character inside a quoted string
literal: the backslash, the chosen quote and the common control characters
are escaped; other characters are kept literally. -/
def pyEscapeChar (q c : Char) : String :=
  if c = '\\' then "\\\\"
  else if c = q then "\\" ++ String.singleton q
  else if c = '\n' then "\\n"
  else if c = '\r' then "\\r"
  else if c = '\t' then "\\t"
  else String.singleton c

/-- Models Python `repr` on a string: single quotes, switching to double
quotes when the string contains a single quote but no double quote. -/
def pyReprStr (s : String) : String :=
  let q := if s.contains squote && !(s.contains '"') then '"' else squote
  String.singleton q ++ String.join (s.data.map (pyEscapeChar q)) ++ String.singleton q

/-- Models Python `str` on a `Dict[str, str]` value, as `str(policy)` in the
policy-link validator. -/
def pyStrLink (d : PolicyLink) : String :=
  String.singleton lbrace
    ++ joinSep ", " (d.map (fun kv => pyReprStr kv.1 ++ ": " ++ pyReprStr kv.2))
    ++ String.singleton rbrace

/-- Models Python `repr` on a ServiceIdentity entry value. -/
def SIVal.pyRepr : SIVal → String
  | .s v => pyReprStr v
  | .sl vs => "[" ++ joinSep ", " (vs.map pyReprStr) ++ "]"

/-- Models Python `str` on a ServiceIdentity dict, as
`str(service_identity)` in the service-identity validator. -/
def pyStrServiceIdentity (d : ServiceIdentity) : String :=
  String.singleton lbrace
    ++ joinSep ", " (d.map (fun kv => pyReprStr kv.1 ++ ": " ++ kv.2.pyRepr))
    ++ String.singleton rbrace

/-- The failures an ACL operation can surface: the module's typed exceptions
(`ACLPolicyFormatError`, `Forbidden`, `NotFound` and the generic request
error from `consulate/exceptions.py`) together with the Python built-ins
`KeyError` and `TypeError` that an unguarded subscript can raise. -/
inductive PyErr where
  | aclPolicyFormatError : String → PyErr
  | forbidden : PyVal → PyErr
  | notFound : String → PyErr
  | requestError : Int → PyVal → PyErr
  | keyError : String → PyErr
  | typeError : String → PyErr

/-- Is the error one of the module's typed exceptions, as opposed to a
Python built-in such as `KeyError`? -/
def PyErr.isConsulateException : PyErr → Bool
  | .aclPolicyFormatError _ => true
  | .forbidden _ => true
  | .notFound _ => true
  | .requestError _ _ => true
  | .keyError _ => false
  | .typeError _ => false

/-- Does this PolicyLink element satisfy the validator's structural
invariant (`'ID' in policy or 'Name' in policy`)? -/
def linkWellFormed (p : PolicyLink) : Bool :=
  hasKey p "ID" || hasKey p "Name"

/-- `__check_policylinks` from `consulate/api/acl.py`: raises
`ACLPolicyFormatError(str(policy))` at the first element with neither an
`ID` nor a `Name` key; returns `True` otherwise. -/
def check_policylinks : List PolicyLink → Except PyErr Bool
  | [] => .ok true
  | policy :: rest =>
    if !linkWellFormed policy then
      .error (.aclPolicyFormatError (pyStrLink policy))
    else check_policylinks rest

/-- Does this ServiceIdentity element satisfy the validator's structural
invariant (`'ServiceName' in service_identity`)? -/
def siWellFormed (si : ServiceIdentity) : Bool :=
  hasKey si "ServiceName"

/-- `__check_service_identities` from `consulate/api/acl.py`: raises
`ACLPolicyFormatError(str(service_identity))` at the first element without
a `ServiceName` key; returns `True` otherwise. -/
def check_service_identities : List ServiceIdentity → Except PyErr Bool
  | [] => .ok true
  | si :: rest =>
    if !siWellFormed si then
      .error (.aclPolicyFormatError (pyStrServiceIdentity si))
    else check_service_identities rest

/-- `__create_json_format` from `consulate/api/acl.py`.  `structures` is
`None` or a list, `check` is the validator (which raises, or returns
`True`), and `dumps` stands for the library serializer `json.dumps`,
passed explicitly because the embedding is typed. -/
def create_json_format (structures : Option (List α))
    (check : List α → Except PyErr Bool) (dumps : List α → String) :
    Except PyErr (Option String) :=
  match structures with
  | Option.none => .ok Option.none
  | Option.some xs =>
    (check xs).bind (fun ok =>
      if ok then .ok (Option.some (dumps xs)) else .ok Option.none)

/-! ### The JSON encoding of policy links

`json.dumps` and `json.loads` are library collaborators; they are embedded
here on exactly the values the payload formatter hands them: a list of
string-to-string dicts, rendered with Python's default separators
(`", "` and `": "`). -/

/-- One lowercase hexadecimal digit, as Python prints it. -/
def hexDigit (n : Nat) : Char :=
  if n < 10 then Char.ofNat (48 + n) else Char.ofNat (87 + n)

/-- Four-digit hexadecimal rendering used by `\uXXXX` escapes. -/
def hex4 (n : Nat) : List Char :=
  [hexDigit (n / 4096 % 16), hexDigit (n / 256 % 16), hexDigit (n / 16 % 16), hexDigit (n % 16)]

/-- `json.dumps` escaping of one character inside a JSON string: the quote
and the backslash are escaped, control characters become `\uXXXX`, and
other characters are kept literally. -/
def jsonEscapeChar (c : Char) : List Char :=
  if c = '"' then ['\\', '"']
  else if c = '\\' then ['\\', '\\']
  else if c.toNat < 32 then '\\' :: 'u' :: hex4 c.toNat
  else [c]

/-- `json.dumps` rendering of a string literal. -/
def jsonDumpStr (s : String) : List Char :=
  '"' :: (s.data.map jsonEscapeChar).flatten ++ ['"']

/-- Join character chunks with a separator. -/
def joinChars (sep : List Char) : List (List Char) → List Char
  | [] => []
  | [x] => x
  | x :: y :: xs => x ++ sep ++ joinChars sep (y :: xs)

/-- `json.dumps` rendering of one `"key": "value"` member. -/
def jsonDumpPair (kv : String × String) : List Char :=
  jsonDumpStr kv.1 ++ ':' :: ' ' :: jsonDumpStr kv.2

/-- `json.dumps` rendering of one `Dict[str, str]` element. -/
def jsonDumpLink (d : PolicyLink) : List Char :=
  lbrace :: joinChars [',', ' '] (d.map jsonDumpPair) ++ [rbrace]

/-- `json.dumps` on a list of `Dict[str, str]` (a `PolicyLinks` value), as
the payload formatter calls it. -/
def dumpsPolicyLinks (links : List PolicyLink) : String :=
  String.mk ('[' :: joinChars [',', ' '] (links.map jsonDumpLink) ++ [']'])

/-- Value of one hexadecimal digit character. -/
def hexVal (c : Char) : Option Nat :=
  if 48 ≤ c.toNat ∧ c.toNat ≤ 57 then Option.some (c.toNat - 48)
  else if 97 ≤ c.toNat ∧ c.toNat ≤ 102 then Option.some (c.toNat - 87)
  else if 65 ≤ c.toNat ∧ c.toNat ≤ 70 then Option.some (c.toNat - 55)
  else Option.none

/-- `json.loads` string scanning: consumes the characters after an opening
quote up to the matching closing quote, decoding escapes; returns the
decoded characters and the unconsumed rest of the input. -/
def parseStringBody : List Char → Option (List Char × List Char)
  | [] => Option.none
  | c :: rest =>
    if c = '"' then Option.some ([], rest)
    else if c = '\\' then
      match rest with
      | [] => Option.none
      | e :: rest2 =>
        if e = '"' then (parseStringBody rest2).map (fun p => ('"' :: p.1, p.2))
        else if e = '\\' then (parseStringBody rest2).map (fun p => ('\\' :: p.1, p.2))
        else if e = 'u' then
          match rest2 with
          | h1 :: h2 :: h3 :: h4 :: rest3 =>
            match hexVal h1, hexVal h2, hexVal h3, hexVal h4 with
            | Option.some a, Option.some b, Option.some c2, Option.some d =>
              (parseStringBody rest3).map
                (fun p => (Char.ofNat (((a * 16 + b) * 16 + c2) * 16 + d) :: p.1, p.2))
            | _, _, _, _ => Option.none
          | _ => Option.none
        else Option.none
    else (parseStringBody rest).map (fun p => (c :: p.1, p.2))
termination_by structural l => l

/-- `json.loads` of a JSON string literal at the head of the input. -/
def parseJStr : List Char → Option (String × List Char)
  | [] => Option.none
  | c :: rest =>
    if c = '"' then (parseStringBody rest).map (fun p => (String.mk p.1, p.2))
    else Option.none

/-- One `"key": "value"` member of an object. -/
def parsePair (l : List Char) : Option ((String × String) × List Char) :=
  match parseJStr l with
  | Option.none => Option.none
  | Option.some (k, r1) =>
    match r1 with
    | ':' :: ' ' :: r2 =>
      match parseJStr r2 with
      | Option.none => Option.none
      | Option.some (v, r3) => Option.some ((k, v), r3)
    | _ => Option.none

/-- The `, "key": "value"` continuation members of an object body, up to the
closing brace.  `fuel` bounds the number of iterations; the top-level entry
point passes the input length, which always suffices. -/
def parsePairsRest : Nat → List Char → Option (List (String × String) × List Char)
  | _, [] => Option.none
  | 0, _ :: _ => Option.none
  | fuel + 1, c :: rest =>
    if c = rbrace then Option.some ([], rest)
    else if c = ',' then
      match rest with
      | ' ' :: r2 =>
        match parsePair r2 with
        | Option.none => Option.none
        | Option.some (kv, r3) =>
          match parsePairsRest fuel r3 with
          | Option.none => Option.none
          | Option.some (kvs, r4) => Option.some (kv :: kvs, r4)
      | _ => Option.none
    else Option.none

/-- One JSON object with string keys and string values. -/
def parseLink (fuel : Nat) (l : List Char) : Option (PolicyLink × List Char) :=
  match l with
  | [] => Option.none
  | c :: rest =>
    if c = lbrace then
      match rest with
      | [] => Option.none
      | d :: r2 =>
        if d = rbrace then Option.some ([], r2)
        else
          match parsePair rest with
          | Option.none => Option.none
          | Option.some (kv, r3) =>
            match parsePairsRest fuel r3 with
            | Option.none => Option.none
            | Option.some (kvs, r4) => Option.some (kv :: kvs, r4)
    else Option.none

/-- The `, OBJECT` continuation elements of an array body, up to the closing
bracket. -/
def parseLinksRest : Nat → List Char → Option (List PolicyLink × List Char)
  | _, [] => Option.none
  | 0, _ :: _ => Option.none
  | fuel + 1, c :: rest =>
    if c = ']' then Option.some ([], rest)
    else if c = ',' then
      match rest with
      | ' ' :: r2 =>
        match parseLink fuel r2 with
        | Option.none => Option.none
        | Option.some (link, r3) =>
          match parseLinksRest fuel r3 with
          | Option.none => Option.none
          | Option.some (links, r4) => Option.some (link :: links, r4)
      | _ => Option.none
    else Option.none

/-- `json.loads` specialised to the values `json.dumps` receives from the
payload formatter: a JSON array of string-to-string objects.  Returns
`none` on any input that is not exactly such an array. -/
def parsePolicyLinks (s : String) : Option (List PolicyLink) :=
  match s.data with
  | [] => Option.none
  | c :: rest =>
    if c = '[' then
      match rest with
      | [] => Option.none
      | d :: r2 =>
        if d = ']' then (if r2 = [] then Option.some [] else Option.none)
        else
          match parseLink s.length rest with
          | Option.none => Option.none
          | Option.some (link, r3) =>
            match parseLinksRest s.length r3 with
            | Option.none => Option.none
            | Option.some (links, r4) =>
              if r4 = [] then Option.some (link :: links) else Option.none
    else Option.none

/-! ### Request models and endpoint operations

`consulate/models/acl.py` and `consulate/api/base.py` are not part of the
sources at hand; their behavior is modelled from the specification where an
operation depends on it.  Each endpoint operation takes, besides its caller
arguments, the `Response` the transport collaborator returned for the one
HTTP request the operation issues. -/

/-- A transport response: status code and parsed body. -/
structure Response where
  status_code : Int
  body : PyVal

/-- Modelled from the spec: `_put_response_body` of the missing
`consulate/api/base.py` — HTTP 403 raises `Forbidden` carrying the body,
any other non-2xx raises the generic request error with status and body,
and a success returns the parsed body. -/
def put_response_body (resp : Response) : Except PyErr PyVal :=
  if resp.status_code = 403 then .error (.forbidden resp.body)
  else if 200 ≤ resp.status_code ∧ resp.status_code < 300 then .ok resp.body
  else .error (.requestError resp.status_code resp.body)

/-- Python subscript `body[key]` on a response body: the value when the key
is present, `KeyError` when it is missing, `TypeError` when the body is not
a dict. -/
def PyVal.getItem (v : PyVal) (key : String) : Except PyErr PyVal :=
  match v with
  | .dict kvs =>
    match kvs.find? (fun kv => kv.1 == key) with
    | Option.some kv => .ok kv.2
    | Option.none => .error (.keyError key)
  | _ => .error (.typeError "value is not subscriptable by string key")

/-- Modelled from the spec: the request model `ACLPolicy` of the missing
`consulate/models/acl.py` — `name` required, every other field optional
with an explicit present/absent state. -/
structure ACLPolicy where
  name : String
  datacenters : Option (List String) := Option.none
  description : Option String := Option.none
  rules : Option String := Option.none
  policies : Option (List PolicyLink) := Option.none
  service_identities : Option (List ServiceIdentity) := Option.none

/-- Modelled from the spec: the legacy request model `ACL` (token) of the
missing `consulate/models/acl.py` — fields `id`, `name`, `type` (defaulting
to `client`) and `rules`. -/
structure ACLToken where
  id : Option String := Option.none
  name : Option String := Option.none
  type : String := "client"
  rules : Option String := Option.none

/-- Emit one key of a serialized model when its field is set. -/
def optField (key : String) : Option PyVal → List (String × PyVal)
  | Option.none => []
  | Option.some x => [(key, x)]

/-- A PolicyLink as a body value. -/
def linkToPyVal (d : PolicyLink) : PyVal :=
  .dict (d.map (fun kv => (kv.1, PyVal.str kv.2)))

/-- A ServiceIdentity entry value as a body value. -/
def SIVal.toPyVal : SIVal → PyVal
  | .s v => .str v
  | .sl vs => .list (vs.map PyVal.str)

/-- A ServiceIdentity as a body value. -/
def serviceIdentityToPyVal (d : ServiceIdentity) : PyVal :=
  .dict (d.map (fun kv => (kv.1, kv.2.toPyVal)))

/-- Run a validator on an optional list: absent lists pass. -/
def validateOpt (check : List α → Except PyErr Bool) : Option (List α) → Except PyErr Bool
  | Option.none => .ok true
  | Option.some xs => check xs

/-- Modelled from the spec: the `dict(...)` conversion of an `ACLPolicy` of
the missing `consulate/models/acl.py` — emits the wire-cased keys of
exactly the fields that are set, validating `policies` and
`service_identities` first and raising `ACLPolicyFormatError` on a
malformed element; `Policies`/`ServiceIdentities` are embedded as nested
structures, following the specification's end-to-end `create role`
scenario. -/
def ACLPolicy.toDict (p : ACLPolicy) : Except PyErr (List (String × PyVal)) :=
  (validateOpt check_policylinks p.policies).bind (fun _ =>
  (validateOpt check_service_identities p.service_identities).bind (fun _ =>
    .ok ([("Name", PyVal.str p.name)]
      ++ optField "Datacenters" (p.datacenters.map (fun ds => PyVal.list (ds.map PyVal.str)))
      ++ optField "Description" (p.description.map PyVal.str)
      ++ optField "Rules" (p.rules.map PyVal.str)
      ++ optField "Policies" (p.policies.map (fun ps => PyVal.list (ps.map linkToPyVal)))
      ++ optField "ServiceIdentities"
          (p.service_identities.map (fun sis => PyVal.list (sis.map serviceIdentityToPyVal))))))

/-- Modelled from the spec: the `dict(...)` conversion of the legacy token
model — `ID`, `Name` and `Rules` only when set; `Type` always has a value
(it defaults to `client`). -/
def ACLToken.toDict (t : ACLToken) : List (String × PyVal) :=
  optField "ID" (t.id.map PyVal.str)
    ++ optField "Name" (t.name.map PyVal.str)
    ++ [("Type", PyVal.str t.type)]
    ++ optField "Rules" (t.rules.map PyVal.str)

/-- `ACL.destroy` from `consulate/api/acl.py`: a `PUT destroy/(id)` whose
response is interpreted directly — 403 raises `Forbidden` with the body,
and otherwise the result is the boolean `status_code == 200`. -/
def ACL.destroy (acl_id : String) (resp : Response) : Except PyErr Bool :=
  let _path := ["destroy", acl_id]
  if resp.status_code = 403 then .error (.forbidden resp.body)
  else .ok (decide (resp.status_code = 200))

/-- `ACL.info` from `consulate/api/acl.py`, as a function of the body a
successful `GET info/(id)` returned (`_get` itself lives in the missing
`base.py`): a falsy body raises `NotFound`, any other body is returned. -/
def ACL.info (response : PyVal) : Except PyErr PyVal :=
  if !response.isTruthy then .error (.notFound "ACL not found")
  else .ok response

/-- `ACL.bootstrap` from `consulate/api/acl.py`: returns
`_put_response_body(['bootstrap'])['ID']`. -/
def ACL.bootstrap (resp : Response) : Except PyErr PyVal :=
  (put_response_body resp).bind (fun body => body.getItem "ID")

/-- `ACL.create` from `consulate/api/acl.py`: builds the token request body
and returns the response body's `ID` entry. -/
def ACL.create (name : String) (acl_type : String := "client")
    (rules : Option String := Option.none) (resp : Response) : Except PyErr PyVal :=
  let _body := ACLToken.toDict { name := Option.some name, type := acl_type, rules := rules }
  (put_response_body resp).bind (fun body => body.getItem "ID")

/-- `ACL.clone` from `consulate/api/acl.py`: a `PUT clone/(id)` returning
the response body's `ID` entry. -/
def ACL.clone (acl_id : String) (resp : Response) : Except PyErr PyVal :=
  let _path := ["clone", acl_id]
  (put_response_body resp).bind (fun body => body.getItem "ID")

/-- `ACL.update` from `consulate/api/acl.py`: builds the token request body
(id included) and returns the response body's `ID` entry. -/
def ACL.update (acl_id : String) (name : String) (acl_type : String := "client")
    (rules : Option String := Option.none) (resp : Response) : Except PyErr PyVal :=
  let _body := ACLToken.toDict
    { id := Option.some acl_id, name := Option.some name, type := acl_type, rules := rules }
  (put_response_body resp).bind (fun body => body.getItem "ID")

/-- `ACL.create_policy` from `consulate/api/acl.py`: the body is
`dict(ACLPolicy(name, datacenters, description, rules))` and the result is
the response body. -/
def ACL.create_policy (name : String) (datacenters : Option (List String) := Option.none)
    (description : Option String := Option.none) (rules : Option String := Option.none)
    (resp : Response) : Except PyErr PyVal :=
  (ACLPolicy.toDict
      { name := name, datacenters := datacenters, description := description,
        rules := rules }).bind
    (fun _body => put_response_body resp)

/-- `ACL.update_policy` from `consulate/api/acl.py`: like `create_policy`
with the policy id in the path. -/
def ACL.update_policy (id : String) (name : String)
    (datacenters : Option (List String) := Option.none)
    (description : Option String := Option.none) (rules : Option String := Option.none)
    (resp : Response) : Except PyErr PyVal :=
  let _path := ["policy", id]
  (ACLPolicy.toDict
      { name := name, datacenters := datacenters, description := description,
        rules := rules }).bind
    (fun _body => put_response_body resp)

/-- `ACL.create_role` from `consulate/api/acl.py`: the body is
`dict(ACLPolicy(name, description, policies, service_identities))`, whose
construction validates the policy links and service identities before the
request is issued; the result is the response body. -/
def ACL.create_role (name : String) (description : Option String := Option.none)
    (policies : Option (List PolicyLink) := Option.none)
    (service_identities : Option (List ServiceIdentity) := Option.none)
    (resp : Response) : Except PyErr PyVal :=
  (ACLPolicy.toDict
      { name := name, description := description, policies := policies,
        service_identities := service_identities }).bind
    (fun _body => put_response_body resp)

/-! ### Helper lemmas -/

theorem hasKey_append (d1 d2 : List (String × α)) (k : String) :
    hasKey (d1 ++ d2) k = (hasKey d1 k || hasKey d2 k) := by
  simp [hasKey, List.any_append]

theorem hasKey_optField (key k : String) (v : Option PyVal) :
    hasKey (optField key v) k = (v.isSome && (key == k)) := by
  cases v <;> simp [optField, hasKey]

theorem hasKey_singleton (k1 k : String) (x : α) :
    hasKey [(k1, x)] k = (k1 == k) := by
  simp [hasKey]

theorem hasKey_cons (k1 k : String) (x : α) (d : List (String × α)) :
    hasKey ((k1, x) :: d) k = ((k1 == k) || hasKey d k) := by
  simp [hasKey]

theorem hasKey_false_find?_none (kvs : List (String × PyVal)) (k : String)
    (h : hasKey kvs k = false) : kvs.find? (fun kv => kv.1 == k) = Option.none := by
  rw [List.find?_eq_none]
  intro x hx hk
  simp only [hasKey, List.any_eq_false, beq_iff_eq] at h
  exact h x hx (by simpa using hk)

/-! ### Claim theorems -/

/-- C1: for every response to `destroy`, a 403 raises `Forbidden` carrying
the response body; otherwise the call returns (never raising) `true`
exactly when the status is 200 and `false` for every other status. -/
theorem destroy_spec (acl_id : String) (resp : Response) :
    (resp.status_code = 403 → ACL.destroy acl_id resp = .error (.forbidden resp.body)) ∧
    (resp.status_code ≠ 403 →
      ACL.destroy acl_id resp = .ok (decide (resp.status_code = 200))) ∧
    (resp.status_code ≠ 403 → resp.status_code ≠ 200 →
      ACL.destroy acl_id resp = .ok false) ∧
    (resp.status_code = 200 → ACL.destroy acl_id resp = .ok true) := by
  refine ⟨fun h => by simp [ACL.destroy, h],
          fun h => by simp [ACL.destroy, h],
          fun h h2 => by simp [ACL.destroy, h, h2],
          fun h => by simp [ACL.destroy, h]⟩

/-- Witness for C1: a 403, a 200 and a 500 response, concretely. -/
theorem destroy_spec_witness :
    ACL.destroy "token-id" ⟨403, PyVal.str "rules"⟩ = .error (.forbidden (PyVal.str "rules")) ∧
    ACL.destroy "token-id" ⟨200, PyVal.none⟩ = .ok true ∧
    ACL.destroy "token-id" ⟨500, PyVal.none⟩ = .ok false :=
  ⟨(destroy_spec "token-id" ⟨403, PyVal.str "rules"⟩).1 rfl,
   (destroy_spec "token-id" ⟨200, PyVal.none⟩).2.2.2 rfl,
   (destroy_spec "token-id" ⟨500, PyVal.none⟩).2.2.1 (by decide) (by decide)⟩

/-- C2: `info` raises `NotFound` when the successful GET produced an
empty/absent (falsy) body, and returns the response record otherwise. -/
theorem info_spec (body : PyVal) :
    (body.isTruthy = false → ACL.info body = .error (.notFound "ACL not found")) ∧
    (body.isTruthy = true → ACL.info body = .ok body) := by
  constructor <;> intro h <;> simp [ACL.info, h]

/-- Witness for C2: an empty dict body and a non-empty record body. -/
theorem info_spec_witness :
    ACL.info (PyVal.dict []) = .error (.notFound "ACL not found") ∧
    ACL.info (PyVal.dict [("ID", PyVal.str "x")]) = .ok (PyVal.dict [("ID", PyVal.str "x")]) :=
  ⟨(info_spec (PyVal.dict [])).1 rfl,
   (info_spec (PyVal.dict [("ID", PyVal.str "x")])).2 rfl⟩

/-- C3: policy-link validation raises `ACLPolicyFormatError` carrying the
representation of an offending element whenever some element has neither an
`ID` nor a `Name` key, and returns `True` whenever every element has one
(the empty list included). -/
theorem check_policylinks_spec (links : List PolicyLink) :
    ((∃ p ∈ links, linkWellFormed p = false) →
      ∃ p ∈ links, linkWellFormed p = false ∧
        check_policylinks links = .error (.aclPolicyFormatError (pyStrLink p))) ∧
    ((∀ p ∈ links, linkWellFormed p = true) →
      check_policylinks links = .ok true) := by
  induction links with
  | nil =>
    refine ⟨?_, fun _ => rfl⟩
    rintro ⟨p, hp, _⟩
    cases hp
  | cons q rest ih =>
    constructor
    · rintro ⟨p, hp, hbad⟩
      by_cases hq : linkWellFormed q = false
      · exact ⟨q, List.mem_cons_self q rest, hq, by simp [check_policylinks, hq]⟩
      · have hq' : linkWellFormed q = true := by
          cases hqv : linkWellFormed q
          · exact absurd hqv hq
          · rfl
        have hpr : p ∈ rest := by
          rcases List.mem_cons.mp hp with h | h
          · subst h; rw [hbad] at hq'; cases hq'
          · exact h
        obtain ⟨r, hr, hrbad, herr⟩ := ih.1 ⟨p, hpr, hbad⟩
        refine ⟨r, List.mem_cons_of_mem q hr, hrbad, ?_⟩
        simpa [check_policylinks, hq'] using herr
    · intro hall
      have hq : linkWellFormed q = true := hall q (List.mem_cons_self q rest)
      have := ih.2 (fun p hp => hall p (List.mem_cons_of_mem q hp))
      simpa [check_policylinks, hq] using this

/-- Witness for C3: a list whose only element lacks both keys fails with
that element's representation; a well-formed list passes. -/
theorem check_policylinks_spec_witness :
    check_policylinks [[]] = .error (.aclPolicyFormatError (pyStrLink [])) ∧
    check_policylinks [[("Name", "svc-read")]] = .ok true := by
  constructor
  · obtain ⟨p, hp, _, herr⟩ :=
      (check_policylinks_spec [[]]).1 ⟨[], by simp, by decide⟩
    have hpe : p = [] := by simpa using hp
    rw [hpe] at herr
    exact herr
  · exact (check_policylinks_spec [[("Name", "svc-read")]]).2 (by decide)

/-- C8: service-identity validation raises `ACLPolicyFormatError` whenever
some element lacks a `ServiceName` key, and returns `True` whenever every
element has one (the empty list included). -/
theorem check_service_identities_spec (sis : List ServiceIdentity) :
    ((∃ si ∈ sis, siWellFormed si = false) →
      ∃ si ∈ sis, siWellFormed si = false ∧
        check_service_identities sis
          = .error (.aclPolicyFormatError (pyStrServiceIdentity si))) ∧
    ((∀ si ∈ sis, siWellFormed si = true) →
      check_service_identities sis = .ok true) := by
  induction sis with
  | nil =>
    refine ⟨?_, fun _ => rfl⟩
    rintro ⟨si, hsi, _⟩
    cases hsi
  | cons q rest ih =>
    constructor
    · rintro ⟨si, hsi, hbad⟩
      by_cases hq : siWellFormed q = false
      · exact ⟨q, List.mem_cons_self q rest, hq, by simp [check_service_identities, hq]⟩
      · have hq' : siWellFormed q = true := by
          cases hqv : siWellFormed q
          · exact absurd hqv hq
          · rfl
        have hpr : si ∈ rest := by
          rcases List.mem_cons.mp hsi with h | h
          · subst h; rw [hbad] at hq'; cases hq'
          · exact h
        obtain ⟨r, hr, hrbad, herr⟩ := ih.1 ⟨si, hpr, hbad⟩
        refine ⟨r, List.mem_cons_of_mem q hr, hrbad, ?_⟩
        simpa [check_service_identities, hq'] using herr
    · intro hall
      have hq : siWellFormed q = true := hall q (List.mem_cons_self q rest)
      have := ih.2 (fun si hsi => hall si (List.mem_cons_of_mem q hsi))
      simpa [check_service_identities, hq] using this

/-- Witness for C8: an identity without `ServiceName` fails; identities
with it pass. -/
theorem check_service_identities_spec_witness :
    check_service_identities [[("Datacenters", SIVal.sl ["dc1"])]]
      = .error (.aclPolicyFormatError (pyStrServiceIdentity [("Datacenters", SIVal.sl ["dc1"])])) ∧
    check_service_identities [[("ServiceName", SIVal.s "web")]] = .ok true := by
  constructor
  · obtain ⟨si, hsi, _, herr⟩ :=
      (check_service_identities_spec [[("Datacenters", SIVal.sl ["dc1"])]]).1
        ⟨[("Datacenters", SIVal.sl ["dc1"])], by simp, by decide⟩
    have hse : si = [("Datacenters", SIVal.sl ["dc1"])] := by simpa using hsi
    rw [hse] at herr
    exact herr
  · exact (check_service_identities_spec [[("ServiceName", SIVal.s "web")]]).2 (by decide)

/-- C4 fails as stated: for the present-but-empty list, the formatter does
not produce an empty or absent result — it runs the validator and returns
the serialization `"[]"` of the empty list. -/
theorem create_json_format_empty_list_cex :
    create_json_format (Option.some ([] : List PolicyLink)) check_policylinks dumpsPolicyLinks
      = .ok (Option.some "[]") ∧
    (Option.some "[]" : Option String) ≠ Option.none ∧ "[]" ≠ "" := by
  refine ⟨rfl, by simp, by decide⟩

/-- C4 (amended): if `structures` is absent (`None`) the formatter produces
the absent result; otherwise — the empty list included — it runs the
supplied validator, propagating its failure, and on success returns the
JSON-serialized form of the structures. -/
theorem create_json_format_spec {α : Type} (check : List α → Except PyErr Bool)
    (dumps : List α → String) :
    (create_json_format Option.none check dumps = .ok Option.none) ∧
    (∀ (xs : List α) (e : PyErr), check xs = .error e →
      create_json_format (Option.some xs) check dumps = .error e) ∧
    (∀ xs : List α, check xs = .ok true →
      create_json_format (Option.some xs) check dumps = .ok (Option.some (dumps xs))) := by
  refine ⟨rfl, fun xs e he => ?_, fun xs hok => ?_⟩
  · simp [create_json_format, he, Except.bind]
  · simp [create_json_format, hok, Except.bind]

/-- Witness for C4 (amended): the three branches at concrete inputs. -/
theorem create_json_format_spec_witness :
    create_json_format Option.none check_policylinks dumpsPolicyLinks = .ok Option.none ∧
    create_json_format (Option.some [[]]) check_policylinks dumpsPolicyLinks
      = .error (.aclPolicyFormatError (pyStrLink [])) ∧
    create_json_format (Option.some [[("Name", "x")]]) check_policylinks dumpsPolicyLinks
      = .ok (Option.some (dumpsPolicyLinks [[("Name", "x")]])) :=
  ⟨(create_json_format_spec check_policylinks dumpsPolicyLinks).1,
   (create_json_format_spec check_policylinks dumpsPolicyLinks).2.1 [[]]
     (.aclPolicyFormatError (pyStrLink [])) rfl,
   (create_json_format_spec check_policylinks dumpsPolicyLinks).2.2 [[("Name", "x")]] rfl⟩

/-- C9: with absent (`None`) structures the formatter returns the absent
result for every validator whatsoever — the conjunction `structures is not
None and check(structures)` short-circuits, so the validator is never
invoked (the result is the same even for a validator that always raises). -/
theorem create_json_format_none_skips_validator {α : Type}
    (check : List α → Except PyErr Bool) (dumps : List α → String) :
    create_json_format Option.none check dumps = .ok Option.none := rfl

/-- C6: request-model serialization omits every field the caller left
unset; in particular an `ACLPolicy` with only `name="p"` set serializes to
exactly the one-key mapping `Name: "p"`. -/
theorem models_omit_unset_fields :
    (∀ (p : ACLPolicy) (d : List (String × PyVal)), ACLPolicy.toDict p = .ok d →
      (p.datacenters = Option.none → hasKey d "Datacenters" = false) ∧
      (p.description = Option.none → hasKey d "Description" = false) ∧
      (p.rules = Option.none → hasKey d "Rules" = false) ∧
      (p.policies = Option.none → hasKey d "Policies" = false) ∧
      (p.service_identities = Option.none → hasKey d "ServiceIdentities" = false)) ∧
    (∀ t : ACLToken,
      (t.id = Option.none → hasKey t.toDict "ID" = false) ∧
      (t.name = Option.none → hasKey t.toDict "Name" = false) ∧
      (t.rules = Option.none → hasKey t.toDict "Rules" = false)) ∧
    ACLPolicy.toDict { name := "p" } = .ok [("Name", PyVal.str "p")] := by
  refine ⟨?_, ?_, rfl⟩
  · intro p d hd
    unfold ACLPolicy.toDict at hd
    cases h1 : validateOpt check_policylinks p.policies with
    | error e => rw [h1] at hd; cases hd
    | ok b1 =>
      rw [h1] at hd
      cases h2 : validateOpt check_service_identities p.service_identities with
      | error e => rw [h2] at hd; cases hd
      | ok b2 =>
        rw [h2] at hd
        simp only [Except.bind] at hd
        obtain rfl : _ = d := by exact (Except.ok.injEq _ _).mp hd
        refine ⟨fun hf => ?_, fun hf => ?_, fun hf => ?_, fun hf => ?_, fun hf => ?_⟩ <;>
          simp [hasKey_append, hasKey_optField, hasKey_singleton, hasKey_cons, hf]
  · intro t
    refine ⟨fun hf => ?_, fun hf => ?_, fun hf => ?_⟩ <;>
      simp [ACLToken.toDict, hasKey_append, hasKey_optField, hasKey_singleton, hasKey_cons, hf]

/-- Witness for C6: a policy with only `name` and `description` set has no
`Datacenters` key; a token with only `name` set has no `ID` key; the
one-field policy serializes to exactly the `Name` mapping. -/
theorem models_omit_unset_fields_witness :
    hasKey [("Name", PyVal.str "n"), ("Description", PyVal.str "d")] "Datacenters" = false ∧
    hasKey (ACLToken.toDict { name := Option.some "n" }) "ID" = false :=
  ⟨(models_omit_unset_fields.1 { name := "n", description := Option.some "d" }
      [("Name", PyVal.str "n"), ("Description", PyVal.str "d")] rfl).1 rfl,
   (models_omit_unset_fields.2.1 { name := Option.some "n" }).1 rfl⟩

/-- C7: `create_role` with a policies list containing an element with
neither `ID` nor `Name` fails with `ACLPolicyFormatError` while building
the request body, for every possible transport response — that is, before
any HTTP request is issued. -/
theorem create_role_invalid_policy_spec (resp : Response) :
    ACLPolicy.toDict { name := "bad", policies := Option.some [[]] }
      = .error (.aclPolicyFormatError (pyStrLink [])) ∧
    ACL.create_role "bad" Option.none (Option.some [[]]) Option.none resp
      = .error (.aclPolicyFormatError (pyStrLink [])) :=
  ⟨rfl, rfl⟩

/-- C10: `bootstrap`, `create`, `clone` and `update` subscript the
successful response body with `ID` unconditionally, so a 2xx response whose
body lacks that key fails with Python's `KeyError` — not with one of the
module's typed exceptions. -/
theorem legacy_token_ops_keyerror (resp : Response) (kvs : List (String × PyVal))
    (hlo : 200 ≤ resp.status_code) (hhi : resp.status_code < 300)
    (hbody : resp.body = PyVal.dict kvs) (hno : hasKey kvs "ID" = false) :
    ACL.bootstrap resp = .error (.keyError "ID") ∧
    ACL.create "token-name" "client" Option.none resp = .error (.keyError "ID") ∧
    ACL.clone "token-id" resp = .error (.keyError "ID") ∧
    ACL.update "token-id" "token-name" "client" Option.none resp = .error (.keyError "ID") ∧
    PyErr.isConsulateException (.keyError "ID") = false := by
  have h403 : ¬ resp.status_code = 403 := by omega
  have hput : put_response_body resp = .ok resp.body := by
    unfold put_response_body
    rw [if_neg h403, if_pos ⟨hlo, hhi⟩]
  have hget : PyVal.getItem resp.body "ID" = .error (.keyError "ID") := by
    rw [hbody]
    simp [PyVal.getItem, hasKey_false_find?_none kvs "ID" hno]
  refine ⟨?_, ?_, ?_, ?_, rfl⟩ <;>
    simp [ACL.bootstrap, ACL.create, ACL.clone, ACL.update, Except.bind, hput, hget]

/-- Witness for C10: a 200 response with an empty-dict body. -/
theorem legacy_token_ops_keyerror_witness :
    ACL.bootstrap ⟨200, PyVal.dict []⟩ = .error (.keyError "ID") :=
  (legacy_token_ops_keyerror ⟨200, PyVal.dict []⟩ [] (by decide) (by decide) rfl rfl).1

/-! ### Round trip of the policy-link JSON encoding (for C5) -/

theorem parseStringBody_quote (rest : List Char) :
    parseStringBody ('"' :: rest) = Option.some ([], rest) := by
  rw [parseStringBody.eq_def]
  simp

theorem parseStringBody_escQuote (rest : List Char) :
    parseStringBody ('\\' :: '"' :: rest)
      = (parseStringBody rest).map (fun p => ('"' :: p.1, p.2)) := by
  rw [parseStringBody.eq_def]
  simp

theorem parseStringBody_escBackslash (rest : List Char) :
    parseStringBody ('\\' :: '\\' :: rest)
      = (parseStringBody rest).map (fun p => ('\\' :: p.1, p.2)) := by
  rw [parseStringBody.eq_def]
  simp

theorem parseStringBody_other (c : Char) (hc1 : ¬c = '"') (hc2 : ¬c = '\\')
    (rest : List Char) :
    parseStringBody (c :: rest) = (parseStringBody rest).map (fun p => (c :: p.1, p.2)) := by
  rw [parseStringBody.eq_def]
  simp [hc1, hc2]

theorem parseStringBody_escU (h1 h2 h3 h4 : Char) (rest : List Char) :
    parseStringBody ('\\' :: 'u' :: h1 :: h2 :: h3 :: h4 :: rest)
      = match hexVal h1, hexVal h2, hexVal h3, hexVal h4 with
        | Option.some a, Option.some b, Option.some c2, Option.some d =>
          (parseStringBody rest).map
            (fun p => (Char.ofNat (((a * 16 + b) * 16 + c2) * 16 + d) :: p.1, p.2))
        | _, _, _, _ => Option.none := by
  rw [parseStringBody.eq_def]
  simp

theorem hexVal_hexDigit (n : Nat) (h : n < 16) : hexVal (hexDigit n) = Option.some n := by
  interval_cases n <;> decide

theorem parseStringBody_escape (cs : List Char) (rest : List Char) :
    parseStringBody ((cs.map jsonEscapeChar).flatten ++ '"' :: rest)
      = Option.some (cs, rest) := by
  induction cs generalizing rest with
  | nil => simpa using parseStringBody_quote rest
  | cons c cs ih =>
    by_cases hc1 : c = '"'
    · subst hc1
      simp [jsonEscapeChar, parseStringBody_escQuote, ih]
    · by_cases hc2 : c = '\\'
      · subst hc2
        simp [jsonEscapeChar, parseStringBody_escBackslash, ih]
      · by_cases hc3 : c.toNat < 32
        · have e1 : hexVal (hexDigit (c.toNat / 4096 % 16)) = Option.some (c.toNat / 4096 % 16) :=
            hexVal_hexDigit _ (Nat.mod_lt _ (by norm_num))
          have e2 : hexVal (hexDigit (c.toNat / 256 % 16)) = Option.some (c.toNat / 256 % 16) :=
            hexVal_hexDigit _ (Nat.mod_lt _ (by norm_num))
          have e3 : hexVal (hexDigit (c.toNat / 16 % 16)) = Option.some (c.toNat / 16 % 16) :=
            hexVal_hexDigit _ (Nat.mod_lt _ (by norm_num))
          have e4 : hexVal (hexDigit (c.toNat % 16)) = Option.some (c.toNat % 16) :=
            hexVal_hexDigit _ (Nat.mod_lt _ (by norm_num))
          have enat : ((c.toNat / 4096 % 16 * 16 + c.toNat / 256 % 16) * 16 + c.toNat / 16 % 16) * 16
              + c.toNat % 16 = c.toNat := by omega
          simp only [jsonEscapeChar, hc1, hc2, hc3, if_true, if_false, ite_true, ite_false,
            if_neg, hex4, List.map_cons, List.flatten_cons, List.append_assoc, List.cons_append,
            List.nil_append]
          rw [parseStringBody_escU]
          simp [e1, e2, e3, e4, enat, Char.ofNat_toNat, ih]
        · simp only [jsonEscapeChar, hc1, hc2, hc3, List.map_cons, List.flatten_cons,
            List.append_assoc, List.cons_append, List.nil_append, if_false, ite_false]
          rw [parseStringBody_other c hc1 hc2]
          simp [ih]

theorem string_mk_data (s : String) : String.mk s.data = s := rfl

theorem parseJStr_dump (s : String) (rest : List Char) :
    parseJStr (jsonDumpStr s ++ rest) = Option.some (s, rest) := by
  have h : jsonDumpStr s ++ rest = '"' :: ((s.data.map jsonEscapeChar).flatten ++ '"' :: rest) := by
    simp [jsonDumpStr]
  rw [h]
  simp [parseJStr, parseStringBody_escape, string_mk_data]

theorem parsePair_dump (kv : String × String) (rest : List Char) :
    parsePair (jsonDumpPair kv ++ rest) = Option.some (kv, rest) := by
  have h : jsonDumpPair kv ++ rest
      = jsonDumpStr kv.1 ++ (':' :: ' ' :: (jsonDumpStr kv.2 ++ rest)) := by
    simp [jsonDumpPair]
  rw [h]
  simp [parsePair, parseJStr_dump]

theorem joinChars_cons (sep : List Char) (x : List Char) (xs : List (List Char)) :
    joinChars sep (x :: xs) = x ++ (xs.map (fun y => sep ++ y)).flatten := by
  induction xs generalizing x with
  | nil => simp [joinChars]
  | cons y ys ih => simp [joinChars, ih y]

theorem joinChars_cons_chunks (sep : List Char) (f : α → List Char) (x : α) (xs : List α) :
    joinChars sep ((x :: xs).map f) = f x ++ (xs.map (fun y => sep ++ f y)).flatten := by
  rw [List.map_cons, joinChars_cons, List.map_map]
  rfl

theorem parsePairsRest_dump (kvs : List (String × String)) (fuel : Nat) (rest : List Char)
    (h : kvs.length < fuel) :
    parsePairsRest fuel
        ((kvs.map (fun kv => ',' :: ' ' :: jsonDumpPair kv)).flatten ++ rbrace :: rest)
      = Option.some (kvs, rest) := by
  induction kvs generalizing fuel rest with
  | nil =>
    cases fuel with
    | zero => omega
    | succ f => simp [parsePairsRest]
  | cons kv kvs ih =>
    cases fuel with
    | zero => omega
    | succ f =>
      simp only [List.map_cons, List.flatten_cons, List.cons_append, List.append_assoc]
      rw [parsePairsRest]
      have h1 : ¬(',' = rbrace) := by decide
      simp only [h1, if_false, ite_false, if_pos, ite_true, if_true, reduceIte]
      have hc : kvs.length < f := by simp at h; omega
      rw [parsePair_dump kv]
      simp [ih _ _ hc]

theorem jsonDumpPair_head (kv : String × String) :
    jsonDumpPair kv = '"' :: ((kv.1.data.map jsonEscapeChar).flatten
      ++ '"' :: ':' :: ' ' :: jsonDumpStr kv.2) := by
  simp [jsonDumpPair, jsonDumpStr]

theorem parseLink_dump (d : PolicyLink) (fuel : Nat) (rest : List Char) (h : d.length ≤ fuel) :
    parseLink fuel (jsonDumpLink d ++ rest) = Option.some (d, rest) := by
  cases d with
  | nil => simp [jsonDumpLink, joinChars, parseLink]
  | cons kv kvs =>
    have hc : kvs.length < fuel := by simp at h; omega
    rw [jsonDumpLink, joinChars_cons_chunks]
    have hshape : (lbrace :: (jsonDumpPair kv
          ++ (kvs.map (fun y => [',', ' '] ++ jsonDumpPair y)).flatten) ++ [rbrace]) ++ rest
        = lbrace :: (jsonDumpPair kv
          ++ ((kvs.map (fun y => [',', ' '] ++ jsonDumpPair y)).flatten ++ rbrace :: rest)) := by
      simp
    rw [hshape]
    have hpair : jsonDumpPair kv
          ++ ((kvs.map (fun y => [',', ' '] ++ jsonDumpPair y)).flatten ++ rbrace :: rest)
        = '"' :: ((kv.1.data.map jsonEscapeChar).flatten ++ '"' :: ':' :: ' ' :: jsonDumpStr kv.2
          ++ ((kvs.map (fun y => [',', ' '] ++ jsonDumpPair y)).flatten ++ rbrace :: rest)) := by
      rw [jsonDumpPair_head]
      simp
    rw [hpair]
    rw [parseLink]
    have h1 : lbrace = lbrace := rfl
    have h2 : ¬('"' = rbrace) := by decide
    simp only [if_pos h1, h2, if_false, ite_false, ite_true, reduceIte]
    rw [← hpair]
    rw [parsePair_dump kv]
    have hpr := parsePairsRest_dump kvs fuel rest hc
    simp only [List.cons_append] at hpr ⊢
    simp [hpr]

theorem parseLinksRest_dump (links : List PolicyLink) (fuel : Nat) (rest : List Char)
    (h : links.length + (links.map List.length).sum < fuel) :
    parseLinksRest fuel
        ((links.map (fun d2 => ',' :: ' ' :: jsonDumpLink d2)).flatten ++ ']' :: rest)
      = Option.some (links, rest) := by
  induction links generalizing fuel rest with
  | nil =>
    cases fuel with
    | zero => omega
    | succ f => simp [parseLinksRest]
  | cons d tail ih =>
    cases fuel with
    | zero => omega
    | succ f =>
      have hd : d.length ≤ f := by simp at h; omega
      have ht : tail.length + (tail.map List.length).sum < f := by simp at h ⊢; omega
      simp only [List.map_cons, List.flatten_cons, List.cons_append, List.append_assoc]
      rw [parseLinksRest]
      have h1 : ¬(',' = ']') := by decide
      simp only [h1, if_false, ite_false, reduceIte]
      rw [parseLink_dump d f _ hd]
      simp [ih _ _ ht]

theorem length_le_flatten (f : α → List Char) (xs : List α)
    (hf : ∀ x, 1 ≤ (f x).length) : xs.length ≤ ((xs.map f).flatten).length := by
  induction xs with
  | nil => simp
  | cons x xs ih =>
    have := hf x
    simp only [List.map_cons, List.flatten_cons, List.length_append, List.length_cons]
    omega

theorem jsonDumpPair_len (kv : String × String) : 1 ≤ (jsonDumpPair kv).length := by
  simp [jsonDumpPair, jsonDumpStr]

theorem jsonDumpLink_len (d : PolicyLink) : d.length + 2 ≤ (jsonDumpLink d).length := by
  cases d with
  | nil => simp [jsonDumpLink, joinChars]
  | cons kv kvs =>
    rw [jsonDumpLink, joinChars_cons_chunks]
    have h1 := jsonDumpPair_len kv
    have h2 : kvs.length ≤ ((kvs.map (fun y => [',', ' '] ++ jsonDumpPair y)).flatten).length :=
      length_le_flatten _ _ (fun y => by simp)
    simp only [List.length_append, List.length_cons, List.length_nil]
    omega

theorem linkChunks_len (tail : List PolicyLink) :
    tail.length + (tail.map List.length).sum
      ≤ ((tail.map (fun t => ',' :: ' ' :: jsonDumpLink t)).flatten).length := by
  induction tail with
  | nil => simp
  | cons t r ih =>
    have h1 := jsonDumpLink_len t
    simp only [List.map_cons, List.flatten_cons, List.length_append, List.length_cons,
      List.sum_cons]
    omega

theorem parsePolicyLinks_dumps (links : List PolicyLink) :
    parsePolicyLinks (dumpsPolicyLinks links) = Option.some links := by
  cases links with
  | nil => decide
  | cons d tail =>
    have hdata : (dumpsPolicyLinks (d :: tail)).data
        = '[' :: (jsonDumpLink d
            ++ ((tail.map (fun t => [',', ' '] ++ jsonDumpLink t)).flatten ++ [']'])) := by
      have hd0 : (dumpsPolicyLinks (d :: tail)).data
          = '[' :: joinChars [',', ' '] ((d :: tail).map jsonDumpLink) ++ [']'] := rfl
      rw [hd0, List.map_cons, joinChars_cons, List.map_map]
      simp only [List.append_assoc, List.cons_append, List.nil_append]
      rfl
    have hlen : (dumpsPolicyLinks (d :: tail)).length
        = ('[' :: (jsonDumpLink d
            ++ ((tail.map (fun t => [',', ' '] ++ jsonDumpLink t)).flatten ++ [']']))).length := by
      rw [show (dumpsPolicyLinks (d :: tail)).length
          = (dumpsPolicyLinks (d :: tail)).data.length from rfl, hdata]
    have hflat : tail.length + (tail.map List.length).sum
        ≤ ((tail.map (fun t => [',', ' '] ++ jsonDumpLink t)).flatten).length := by
      have := linkChunks_len tail
      simpa using this
    have hd : d.length ≤ (dumpsPolicyLinks (d :: tail)).length := by
      have h1 := jsonDumpLink_len d
      rw [hlen]
      simp only [List.length_cons, List.length_append]
      omega
    have ht : tail.length + (tail.map List.length).sum
        < (dumpsPolicyLinks (d :: tail)).length := by
      have h1 := jsonDumpLink_len d
      rw [hlen]
      simp only [List.length_cons, List.length_append]
      omega
    have hdl : jsonDumpLink d
        = lbrace :: (joinChars [',', ' '] (d.map jsonDumpPair) ++ [rbrace]) := rfl
    have hshape : jsonDumpLink d
          ++ ((tail.map (fun t => [',', ' '] ++ jsonDumpLink t)).flatten ++ [']'])
        = lbrace :: ((joinChars [',', ' '] (d.map jsonDumpPair) ++ [rbrace])
          ++ ((tail.map (fun t => [',', ' '] ++ jsonDumpLink t)).flatten ++ [']'])) := by
      rw [hdl]
      simp
    unfold parsePolicyLinks
    rw [hdata, hshape]
    have h1 : ¬(lbrace = ']') := by decide
    simp only [h1, if_false, ite_false, reduceIte, if_pos, ite_true, reduceCtorEq]
    rw [← hshape]
    rw [parseLink_dump d _ _ hd]
    have hrest := parseLinksRest_dump tail (dumpsPolicyLinks (d :: tail)).length [] ht
    simp only [List.cons_append] at hrest ⊢
    simp [hrest]

theorem check_policylinks_ok (links : List PolicyLink)
    (hwf : ∀ p ∈ links, linkWellFormed p = true) : check_policylinks links = .ok true := by
  induction links with
  | nil => rfl
  | cons q rest ih =>
    have hq : linkWellFormed q = true := hwf q (List.mem_cons_self q rest)
    have := ih (fun p hp => hwf p (List.mem_cons_of_mem q hp))
    simpa [check_policylinks, hq] using this

/-- C5: for every non-empty list of PolicyLink mappings in which every
element has an `ID` or `Name` key, validation succeeds and parsing the JSON
string produced by the payload formatter yields a list equal to the
input. -/
theorem policylinks_roundtrip (links : List PolicyLink) (hne : links ≠ [])
    (hwf : ∀ p ∈ links, linkWellFormed p = true) :
    check_policylinks links = .ok true ∧
    create_json_format (Option.some links) check_policylinks dumpsPolicyLinks
      = .ok (Option.some (dumpsPolicyLinks links)) ∧
    parsePolicyLinks (dumpsPolicyLinks links) = Option.some links := by
  have hok := check_policylinks_ok links hwf
  refine ⟨hok, ?_, parsePolicyLinks_dumps links⟩
  simp [create_json_format, hok, Except.bind]

/-- Witness for C5: the one-element list from the specification's
end-to-end scenario. -/
theorem policylinks_roundtrip_witness :
    check_policylinks [[("Name", "svc-read")]] = .ok true ∧
    create_json_format (Option.some [[("Name", "svc-read")]]) check_policylinks dumpsPolicyLinks
      = .ok (Option.some (dumpsPolicyLinks [[("Name", "svc-read")]])) ∧
    parsePolicyLinks (dumpsPolicyLinks [[("Name", "svc-read")]])
      = Option.some [[("Name", "svc-read")]] :=
  policylinks_roundtrip [[("Name", "svc-read")]] (by decide) (by decide)
